import Mathlib

/-!
Verification of `js_env` (source: `src/js_env.py`), a file-watching build
daemon.  The development shallowly embeds the parts of the program the
claims are about:

* the include/exclude filter `Configuration.is_watched` (lines 134-151),
* the startup checks of `Configuration.__init__` (lines 80-92),
* the event normalisation and dispatch of `ChangeHandler._build_if_watched`
  and `ChangeHandler.on_deleted` (lines 222-250),
* the action triggers `build`/`test`/`run`/`start`/`serve` (lines 179-214).

Python strings are modelled as Lean `String`s; the Python operations
`str.endswith`, `in` (substring test) and `str.replace(pat, "")` are
re-implemented below over the character lists.  Calls into external
collaborators are abstracted as explicit oracles passed to the embedded
functions: `re.findall` truth (the regex engine of the `re` library)
becomes an oracle `m : String → String → Bool`, `os.path.isfile` becomes
`isfile : String → Bool`, and the exit status of `subprocess.run` becomes
`exitOf : String → Int`.
-/

namespace JsEnv

/-! ### Python string primitives -/

/-- Python `s.endswith(sfx)`. -/
def pyEndsWith (s sfx : String) : Bool :=
  sfx.data.isSuffixOf s.data

/-- Python substring containment `pat in s`, as a left-to-right scan over
the characters of `s`. -/
def strIn (pat : List Char) : List Char → Bool
  | [] => pat.isEmpty
  | c :: cs => pat.isPrefixOf (c :: cs) || strIn pat cs

/-- Python `sub in s` on strings. -/
def pyIn (sub s : String) : Bool :=
  strIn sub.data s.data

/-- Fuel-indexed core of Python `s.replace(pat, "")`: remove the leftmost
occurrence of `pat`, continue after it, and repeat.  The fuel only has to
dominate the length of the scanned list (each step consumes at least one
character), so `pyRemove` below passes the length of `s`. -/
def removeAllGo (pat : List Char) : Nat → List Char → List Char
  | _, [] => []
  | 0, s => s
  | fuel + 1, c :: cs =>
    if pat.isPrefixOf (c :: cs) then
      removeAllGo pat fuel (List.drop pat.length (c :: cs))
    else
      c :: removeAllGo pat fuel cs

/-- Python `s.replace(pat, "")`: every occurrence of `pat` in `s` is
removed, scanning left to right without overlap. -/
def pyRemove (s pat : String) : String :=
  ⟨removeAllGo pat.data s.data.length s.data⟩

/-! ### Filter rules and the path classifier

`FilterRules` carries the five rule lists of the `Configuration` object
(`_included_extensions`, `_excluded_extensions`, `_excluded_folders`,
`_excluded_files`, `_excluded_regex`). -/

structure FilterRules where
  included_extensions : List String
  excluded_extensions : List String
  excluded_folders : List String
  excluded_files : List String
  excluded_regex : List String

/-- `Configuration.is_watched` (lines 134-151): five ordered passes over
the rule lists, each of which may overwrite the running `watched` flag.
`m regex filepath` stands for the truth of `re.findall(regex, filepath)`
(nonempty match list), the call into the external regex engine. -/
def is_watched (m : String → String → Bool) (cfg : FilterRules) (filepath : String) : Bool :=
  let watched := false
  let watched := cfg.included_extensions.foldl
    (fun watched ext => if pyEndsWith filepath ext then true else watched) watched
  let watched := cfg.excluded_extensions.foldl
    (fun watched ext => if pyEndsWith filepath ext then false else watched) watched
  let watched := cfg.excluded_folders.foldl
    (fun watched folder => if pyIn folder filepath then false else watched) watched
  let watched := cfg.excluded_files.foldl
    (fun watched fn => if pyIn fn filepath then false else watched) watched
  let watched := cfg.excluded_regex.foldl
    (fun watched regex => if m regex filepath then false else watched) watched
  watched

/-! ### Characterisation of the override chain -/

/-- A pass that can only set the flag to `true` computes the disjunction of
the starting flag with "some element matches". -/
theorem foldl_set_true {α : Type} (p : α → Bool) (l : List α) (b : Bool) :
    l.foldl (fun w x => if p x then true else w) b = (b || l.any p) := by
  induction l generalizing b with
  | nil => simp
  | cons a l ih =>
    simp only [List.foldl_cons, List.any_cons, ih]
    cases p a <;> simp

/-- A pass that can only set the flag to `false` computes the conjunction of
the starting flag with "no element matches". -/
theorem foldl_set_false {α : Type} (p : α → Bool) (l : List α) (b : Bool) :
    l.foldl (fun w x => if p x then false else w) b = (b && !(l.any p)) := by
  induction l generalizing b with
  | nil => simp
  | cons a l ih =>
    simp only [List.foldl_cons, List.any_cons, ih]
    cases p a <;> simp

/-- Closed form of the classifier: watched iff some inclusion extension
matches and no exclusion rule of any category matches. -/
theorem is_watched_eq (m : String → String → Bool) (cfg : FilterRules) (p : String) :
    is_watched m cfg p =
      (cfg.included_extensions.any (fun e => pyEndsWith p e) &&
        !(cfg.excluded_extensions.any (fun e => pyEndsWith p e)) &&
        !(cfg.excluded_folders.any (fun f => pyIn f p)) &&
        !(cfg.excluded_files.any (fun f => pyIn f p)) &&
        !(cfg.excluded_regex.any (fun rx => m rx p))) := by
  simp only [is_watched, foldl_set_true, foldl_set_false, Bool.false_or]

/-! ### Substring and removal lemmas -/

/-- The Python substring scan agrees with list infixhood. -/
theorem strIn_iff (pat s : List Char) : strIn pat s = true ↔ pat <:+: s := by
  induction s with
  | nil => simp [strIn, List.isEmpty_iff, List.infix_nil]
  | cons c cs ih =>
    simp [strIn, ih, List.infix_cons_iff, List.isPrefixOf_iff_prefix]

/-- If the pattern occurs nowhere in `s`, the removal scan returns `s`
unchanged (for any sufficient fuel). -/
theorem removeAllGo_of_not_infix (pat : List Char) :
    ∀ (fuel : Nat) (s : List Char),
      s.length ≤ fuel → ¬ pat <:+: s → removeAllGo pat fuel s = s := by
  intro fuel
  induction fuel with
  | zero =>
    intro s hs _
    cases s with
    | nil => rfl
    | cons c cs => simp at hs
  | succ fuel ih =>
    intro s hs hinf
    cases s with
    | nil => rfl
    | cons c cs =>
      have hp : pat.isPrefixOf (c :: cs) = false := by
        cases hv : pat.isPrefixOf (c :: cs) with
        | false => rfl
        | true =>
          exact absurd ( List.IsPrefix.isInfix ( List.isPrefixOf_iff_prefix.mp hv)) hinf
      rw [removeAllGo, if_neg (by simp [hp])]
      have hcs : removeAllGo pat fuel cs = cs :=
        ih cs (Nat.le_of_succ_le_succ hs) (fun h => hinf (List.infix_cons h))
      rw [hcs]

/-- Removing a nonempty pattern from `pat ++ rest` when the pattern occurs
nowhere in `rest` strips exactly the leading copy of the pattern. -/
theorem removeAllGo_strip (pat rest : List Char) (hp : pat ≠ [])
    (hni : ¬ pat <:+: rest) :
    removeAllGo pat (pat ++ rest).length (pat ++ rest) = rest := by
  cases pat with
  | nil => exact absurd rfl hp
  | cons a pat =>
    show removeAllGo (a :: pat) ((pat ++ rest).length + 1) (a :: (pat ++ rest)) = rest
    rw [removeAllGo]
    have hpre : (a :: pat).isPrefixOf (a :: (pat ++ rest)) = true :=
      List.isPrefixOf_iff_prefix.mpr ( List.prefix_append (a :: pat) rest)
    rw [if_pos (by simp [hpre])]
    have hdrop : List.drop (a :: pat).length (a :: (pat ++ rest)) = rest := by
      simp [List.drop_left]
    rw [hdrop]
    exact removeAllGo_of_not_infix _ _ _ (by simp) hni

/-! ### Event normalisation and the change handler

`ChangeHandler._build_if_watched` (lines 222-238) first tests
`os.path.isfile(filepath)`; only then does it form
`pwd = os.path.abspath(self.root) + "/"`, `assert pwd in filepath`
(Python substring containment, not a prefix test), strip with
`filepath.replace(pwd, "")` (removal of every occurrence) and classify.
`root` below stands for the already-absolute root directory, so that
`os.path.abspath` (an OS call) is the identity on it. -/

/-- The `assert pwd in filepath` / `filepath.replace(pwd, "")`
normalisation step: `none` models the `AssertionError` raised when
`root + "/"` occurs nowhere in the raw path. -/
def normalize (root rawPath : String) : Option String :=
  let pwd := root ++ "/"
  if pyIn pwd rawPath then some (pyRemove rawPath pwd) else none

/-- Observable outcome of `ChangeHandler._build_if_watched`. -/
inductive HandlerResult where
  | ignoredNotFile : HandlerResult
  | assertFailed : HandlerResult
  | notWatched (rel : String) : HandlerResult
  | built (rel : String) : HandlerResult
deriving DecidableEq

/-- `ChangeHandler._build_if_watched` (lines 222-238).  `isfile` is the
`os.path.isfile` oracle: the state of the disk at handling time. -/
def build_if_watched (isfile : String → Bool) (m : String → String → Bool)
    (cfg : FilterRules) (root filepath : String) : HandlerResult :=
  if isfile filepath then
    match normalize root filepath with
    | some rel =>
      if is_watched m cfg rel then HandlerResult.built rel else HandlerResult.notWatched rel
    | none => HandlerResult.assertFailed
  else
    HandlerResult.ignoredNotFile

/-- `ChangeHandler.on_deleted` (lines 248-250): delegates every delete
event to `_build_if_watched`. -/
def on_deleted (isfile : String → Bool) (m : String → String → Bool)
    (cfg : FilterRules) (root filepath : String) : HandlerResult :=
  build_if_watched isfile m cfg root filepath

/-! ### Action triggers

Each trigger function (lines 179-214) prints, optionally calls
`subprocess.run` guarded by the truthiness (non-emptiness) of a command
string, and returns a fixed status label.  The embedding returns the list
of commands handed to `subprocess.run`, paired with the exit status the
oracle `exitOf` assigns them (the return value of `subprocess.run` is
discarded by the source, and no `check=True` is passed, so a non-zero
status raises nothing), together with the returned label.  The
`shlex.split` wrapping used by `test`/`start`/`run` belongs to the
external process boundary and is not modelled. -/

structure Commands where
  build_command : String
  test_command : String
  run_command : String
  start_command : String
  serve_command : String

/-- `build()` (lines 179-183): guarded by `config.build_command`. -/
def build (c : Commands) (exitOf : String → Int) : List (String × Int) × String :=
  (if c.build_command = "" then [] else [(c.build_command, exitOf c.build_command)], "Building")

/-- `test()` (lines 186-190): guarded by `config.test_command`. -/
def test (c : Commands) (exitOf : String → Int) : List (String × Int) × String :=
  (if c.test_command = "" then [] else [(c.test_command, exitOf c.test_command)], "Testing")

/-- `start()` (lines 193-197): guarded by `config.start_command`. -/
def start (c : Commands) (exitOf : String → Int) : List (String × Int) × String :=
  (if c.start_command = "" then [] else [(c.start_command, exitOf c.start_command)], "Starting")

/-- `run()` (lines 200-204): guarded by `config.run_command`. -/
def run (c : Commands) (exitOf : String → Int) : List (String × Int) × String :=
  (if c.run_command = "" then [] else [(c.run_command, exitOf c.run_command)], "Running")

/-- `serve()` (lines 210-214): the guard reads `config.run_command`, while
the spawned command is `config.serve_command`. -/
def serve (c : Commands) (exitOf : String → Int) : List (String × Int) × String :=
  (if c.run_command = "" then [] else [(c.serve_command, exitOf c.serve_command)], "Serving")

/-! ### Configuration startup checks

`Configuration.__init__` (lines 80-92) asserts that the parsed ini file
has a `commands` section and a `server` section and that every name in
`self._commands = ["build", "serve", "start", "test"]` is a key of the
`commands` section. -/

structure IniConf where
  sections : List String
  commandKeys : List String

/-- The list `self._commands` checked at startup. -/
def required_commands : List String := ["build", "serve", "start", "test"]

/-- Truth of the three `assert` statements of `Configuration.__init__`:
`true` means construction succeeds, `false` that it raises. -/
def configuration_init_ok (conf : IniConf) : Bool :=
  conf.sections.contains "commands" && conf.sections.contains "server" &&
    required_commands.all (fun c => conf.commandKeys.contains c)

/-! ### Helper lemmas for monotonicity -/

/-- `List.any` is monotone under adding elements. -/
theorem any_true_mono {α : Type} (p : α → Bool) {l l' : List α}
    (hsub : ∀ x ∈ l, x ∈ l') (h : l.any p = true) : l'.any p = true := by
  obtain ⟨x, hx, hpx⟩ := List.any_eq_true.mp h
  exact List.any_eq_true.mpr ⟨x, hsub x hx, hpx⟩

/-- `List.any` being `false` is preserved when removing elements. -/
theorem any_false_mono {α : Type} (p : α → Bool) {l l' : List α}
    (hsub : ∀ x ∈ l, x ∈ l') (h : l'.any p = false) : l.any p = false := by
  rw [List.any_eq_false] at h ⊢
  exact fun x hx => h x (hsub x hx)

/-! ### Claims about the path classifier -/

/-- Claim C1: for every relative path and rule set, if the path matches at
least one inclusion extension and also matches at least one exclusion rule
of any category (excluded extension, excluded folder substring, excluded
file substring, or excluded regex), then `is_watched` returns `false`:
the later exclusion passes override the inclusion pass. -/
theorem is_watched_exclusion_dominates (m : String → String → Bool)
    (cfg : FilterRules) (p : String)
    (hinc : ∃ e ∈ cfg.included_extensions, pyEndsWith p e = true)
    (hexc : (∃ e ∈ cfg.excluded_extensions, pyEndsWith p e = true) ∨
      (∃ f ∈ cfg.excluded_folders, pyIn f p = true) ∨
      (∃ f ∈ cfg.excluded_files, pyIn f p = true) ∨
      (∃ rx ∈ cfg.excluded_regex, m rx p = true)) :
    is_watched m cfg p = false := by
  rw [is_watched_eq]
  rcases hexc with h | h | h | h <;>
    simp [List.any_eq_true.mpr h]

/-- Witness for C1 at a concrete input: extension `.js` both included and
excluded. -/
theorem is_watched_exclusion_dominates_witness :
    is_watched (fun _ _ => false) ⟨[".js"], [".js"], [], [], []⟩ "a.js" = false :=
  is_watched_exclusion_dominates _ _ _ ⟨".js", by decide, by decide⟩
    (Or.inl ⟨".js", by decide, by decide⟩)

/-- Claim C2: with an empty `included_extensions` list the classifier
returns `false` for every path and every remaining rule content: the flag
starts `false` and only the inclusion pass can set it. -/
theorem is_watched_empty_inclusions (m : String → String → Bool)
    (cfg : FilterRules) (p : String) (h : cfg.included_extensions = []) :
    is_watched m cfg p = false := by
  rw [is_watched_eq, h]
  simp

/-- Witness for C2 at a concrete input. -/
theorem is_watched_empty_inclusions_witness :
    is_watched (fun _ _ => false) ⟨[], [".tmp"], ["node_modules"], [], []⟩ "a.js" = false :=
  is_watched_empty_inclusions _ _ _ rfl

/-- Claim C8: under `included_extensions = [".js"]` and
`excluded_folders = ["node_modules"]` (all other lists empty, any regex
oracle), `src/app.js` is watched and `node_modules/lib/app.js` is not. -/
theorem is_watched_js_node_modules :
    ∀ m : String → String → Bool,
      is_watched m ⟨[".js"], [], ["node_modules"], [], []⟩ "src/app.js" = true ∧
      is_watched m ⟨[".js"], [], ["node_modules"], [], []⟩ "node_modules/lib/app.js" = false :=
  fun _ => ⟨rfl, rfl⟩

/-- Claim C10: the classifier is monotone in the rules.  Enlarging the
inclusion list (keeping the four exclusion lists) preserves `watched`;
enlarging any exclusion lists (keeping the inclusion list) only ever
un-watches paths. -/
theorem is_watched_monotone (m : String → String → Bool) (p : String)
    (cfg cfgInc cfgExc : FilterRules)
    (hi : ∀ e ∈ cfg.included_extensions, e ∈ cfgInc.included_extensions)
    (hi1 : cfgInc.excluded_extensions = cfg.excluded_extensions)
    (hi2 : cfgInc.excluded_folders = cfg.excluded_folders)
    (hi3 : cfgInc.excluded_files = cfg.excluded_files)
    (hi4 : cfgInc.excluded_regex = cfg.excluded_regex)
    (he : cfgExc.included_extensions = cfg.included_extensions)
    (he1 : ∀ e ∈ cfg.excluded_extensions, e ∈ cfgExc.excluded_extensions)
    (he2 : ∀ f ∈ cfg.excluded_folders, f ∈ cfgExc.excluded_folders)
    (he3 : ∀ f ∈ cfg.excluded_files, f ∈ cfgExc.excluded_files)
    (he4 : ∀ rx ∈ cfg.excluded_regex, rx ∈ cfgExc.excluded_regex) :
    (is_watched m cfg p = true → is_watched m cfgInc p = true) ∧
    (is_watched m cfgExc p = true → is_watched m cfg p = true) := by
  constructor
  · intro h
    rw [is_watched_eq] at h ⊢
    rw [hi1, hi2, hi3, hi4]
    simp only [Bool.and_eq_true] at h ⊢
    obtain ⟨⟨⟨⟨ha, hb⟩, hc⟩, hd⟩, hee⟩ := h
    exact ⟨⟨⟨⟨any_true_mono _ hi ha, hb⟩, hc⟩, hd⟩, hee⟩
  · intro h
    rw [is_watched_eq] at h ⊢
    rw [he] at h
    simp only [Bool.and_eq_true, Bool.not_eq_true'] at h ⊢
    obtain ⟨⟨⟨⟨ha, hb⟩, hc⟩, hd⟩, hee⟩ := h
    exact ⟨⟨⟨⟨ha, any_false_mono _ he1 hb⟩, any_false_mono _ he2 hc⟩,
      any_false_mono _ he3 hd⟩, any_false_mono _ he4 hee⟩

/-- Witness for C10 at concrete rule sets: adding `.css` to the inclusions
and adding `.bak`/`node_modules` to the exclusions. -/
theorem is_watched_monotone_witness :
    (is_watched (fun _ _ => false) ⟨[".js"], [".tmp"], [], [], []⟩ "a.js" = true →
      is_watched (fun _ _ => false) ⟨[".js", ".css"], [".tmp"], [], [], []⟩ "a.js" = true) ∧
    (is_watched (fun _ _ => false) ⟨[".js"], [".tmp", ".bak"], ["node_modules"], [], []⟩
        "a.js" = true →
      is_watched (fun _ _ => false) ⟨[".js"], [".tmp"], [], [], []⟩ "a.js" = true) :=
  is_watched_monotone (fun _ _ => false) "a.js"
    ⟨[".js"], [".tmp"], [], [], []⟩
    ⟨[".js", ".css"], [".tmp"], [], [], []⟩
    ⟨[".js"], [".tmp", ".bak"], ["node_modules"], [], []⟩
    (by decide) rfl rfl rfl rfl rfl (by decide) (by decide) (by decide) (by decide)

/-! ### Claims about normalisation and the change handler -/

/-- Counterexample to C3 as stated: `"/b/a/c"` is not prefixed by the root
`"/a"`, yet normalisation does not fail — the code only checks substring
containment of `"/a/"` and removes every occurrence, yielding `"/bc"`. -/
theorem normalize_accepts_unprefixed_path :
    normalize "/a" "/b/a/c" = some "/bc" := by decide

/-- Claim C3 (amended): normalisation succeeds exactly when `root ++ "/"`
occurs somewhere in the raw path (substring containment, not a prefix
test), and on success removes every occurrence of `root ++ "/"`.  In
particular `normalize root (root ++ "/a/b.js") = some "a/b.js"` whenever
`root ++ "/"` does not also occur inside `"a/b.js"` (true of every
absolute root), and a raw path in which `root ++ "/"` occurs nowhere is
rejected. -/
theorem normalize_strip_and_reject (root : String)
    (h : ¬ (root ++ "/").data <:+: "a/b.js".data) :
    normalize root (root ++ "/a/b.js") = some "a/b.js" ∧
    ∀ raw, pyIn (root ++ "/") raw = false → normalize root raw = none := by
  have hdata : (root ++ "/a/b.js").data = (root ++ "/").data ++ "a/b.js".data := by
    rw [String.data_append, String.data_append]
    rw [List.append_assoc]
    rfl
  constructor
  · have hin : pyIn (root ++ "/") (root ++ "/a/b.js") = true := by
      rw [pyIn, hdata]
      exact (strIn_iff _ _).mpr ( List.IsPrefix.isInfix ( List.prefix_append _ _))
    have hne : (root ++ "/").data ≠ [] := by
      rw [String.data_append]
      simp
    have hrem : pyRemove (root ++ "/a/b.js") (root ++ "/") = "a/b.js" := by
      rw [pyRemove]
      congr 1
      rw [hdata]
      exact removeAllGo_strip _ _ hne h
    simp only [normalize, hin, if_true, hrem]
  · intro raw hraw
    simp only [normalize, hraw]
    rfl

/-- Witness for C3 (amended) at the concrete root `"/r"` and the concrete
outside path `"/other/x"`. -/
theorem normalize_strip_and_reject_witness :
    normalize "/r" ("/r" ++ "/a/b.js") = some "a/b.js" ∧
    normalize "/r" "/other/x" = none :=
  ⟨(normalize_strip_and_reject "/r" (by decide)).1,
   (normalize_strip_and_reject "/r" (by decide)).2 "/other/x" (by decide)⟩

/-- Claim C4 (divergence witness): a delete event for the watched file
`/r/a.js` (absent from disk at handling time, so the `os.path.isfile`
oracle answers `false` everywhere) is dropped by `on_deleted` without
being normalised or classified — even though normalisation would yield
`a.js` and the classifier would report it watched, so a rebuild would
have been triggered had the event been classified. -/
theorem on_deleted_ignores_missing_path :
    on_deleted (fun _ => false) (fun _ _ => false) ⟨[".js"], [], [], [], []⟩ "/r" "/r/a.js" =
      HandlerResult.ignoredNotFile ∧
    normalize "/r" "/r/a.js" = some "a.js" ∧
    is_watched (fun _ _ => false) ⟨[".js"], [], [], [], []⟩ "a.js" = true :=
  ⟨rfl, rfl, rfl⟩

/-! ### Claims about the action triggers -/

/-- Counterexample to C5 as stated: the build command exits with status 1,
yet the result text returned to the producer is identical to the text
returned when the same command exits with status 0 — no distinguishable
failed result exists. -/
theorem build_nonzero_exit_same_result :
    (build ⟨"npm x", "", "", "", ""⟩ (fun _ => 1)).1 = [("npm x", 1)] ∧
    (build ⟨"npm x", "", "", "", ""⟩ (fun _ => 1)).2 =
      (build ⟨"npm x", "", "", "", ""⟩ (fun _ => 0)).2 :=
  ⟨rfl, rfl⟩

/-- Claim C5 (amended): a non-zero exit status never crashes the dispatcher
or its caller — the exit status of the spawned process is ignored and each
trigger returns its fixed status label, but for exactly that reason the
returned result is the same for every exit status: success and failure are
not distinguishable in the result reported to the producer. -/
theorem trigger_labels_ignore_exit (c : Commands) (e e' : String → Int) :
    (build c e).2 = "Building" ∧ (build c e).2 = (build c e').2 ∧
    (test c e).2 = "Testing" ∧ (test c e).2 = (test c e').2 ∧
    (run c e).2 = "Running" ∧ (run c e).2 = (run c e').2 ∧
    (start c e).2 = "Starting" ∧ (start c e).2 = (start c e').2 ∧
    (serve c e).2 = "Serving" ∧ (serve c e).2 = (serve c e').2 :=
  ⟨rfl, rfl, rfl, rfl, rfl, rfl, rfl, rfl, rfl, rfl⟩

/-- Claim C6 (divergence witness): with an empty `serve` command but a
non-empty `run` command, triggering `serve` hands the empty string to the
shell (one `subprocess.run` call occurs) instead of being a no-op,
because the guard reads `run_command` rather than `serve_command`. -/
theorem serve_empty_command_spawns_shell :
    serve ⟨"b", "t", "npm run dev", "s", ""⟩ (fun _ => 0) = ([("", 0)], "Serving") :=
  rfl

/-- Claim C9: `serve` executes the configured serve command iff the
configured `run` command is non-empty — the serve command's own emptiness
is never the guard — and returns `"Serving"` in every case. -/
theorem serve_guard_is_run_command (c : Commands) (e : String → Int) :
    (serve c e).2 = "Serving" ∧
    ((serve c e).1 ≠ [] ↔ c.run_command ≠ "") ∧
    (serve c e).1 = (if c.run_command = "" then []
      else [(c.serve_command, e c.serve_command)]) := by
  refine ⟨rfl, ?_, rfl⟩
  by_cases h : c.run_command = "" <;> simp [serve, h]

/-! ### Claims about configuration startup -/

/-- Counterexample to C7 as stated: an ini file with the `commands` and
`server` sections whose `commands` section has the keys `build`, `serve`,
`start`, `test` but no `run` key is accepted by `Configuration.__init__` —
the `run` key is never checked at construction time. -/
theorem config_accepts_missing_run_key :
    configuration_init_ok ⟨["commands", "server"], ["build", "serve", "start", "test"]⟩
      = true := by decide

/-- Claim C7 (amended): construction succeeds exactly when the `commands`
and `server` sections are present and the `commands` section has the four
keys `build`, `serve`, `start`, `test`; the `run` key is not required at
startup (its absence only surfaces later, when an action reading
`run_command` is triggered). -/
theorem config_init_iff (conf : IniConf) :
    configuration_init_ok conf = true ↔
      ("commands" ∈ conf.sections ∧ "server" ∈ conf.sections ∧
        ∀ c ∈ required_commands, c ∈ conf.commandKeys) := by
  simp [configuration_init_ok, List.contains, List.elem_iff, List.all_eq_true,
    and_assoc]

end JsEnv
